import Mathlib

/-!
Verification development for the GitHub deployment-protection report generator
(`gh-deployment-report/generate_github_deployment_report.py`).

The Python script is shallowly embedded here:

* JSON dictionaries become Lean structures whose fields are `Option`-valued,
  mirroring `dict.get` returning `None` for absent keys.
* Timestamps (ISO strings parsed by `strptime` in the script) are modelled as
  epoch seconds of type `Int`; the script only ever compares and subtracts
  them, so an order- and difference-preserving representation is faithful.
* Network I/O is modelled by oracle functions supplied as parameters: a page
  fetch yields either a parsed payload or an `ApiError` (the effect of
  `response.raise_for_status()` raising `HTTPError`).  Fallible Python code
  therefore returns `Except ApiError _` here.
* `time.sleep` calls are modelled by recording the slept durations in an
  emitted trace list.

Definitions come first, mirroring the script function by function; the
theorems about them follow.
-/

namespace DeploymentReport

/-- A GitHub user object as the script reads it: only the `login` field is
accessed, always through `.get('login')`, so it may be absent. -/
structure User where
  login : Option String
deriving Repr, DecidableEq

/-- A workflow run, restricted to the fields the script reads.
`actor_login` is the value of `run.get('actor', {}).get('login')`,
`created_at` the parsed creation timestamp (epoch seconds), `none` when the
key is absent or falsy. -/
structure WorkflowRun where
  id : Option Nat
  name : Option String
  workflow_name : Option String
  actor_login : Option String
  created_at : Option Int
  status : Option String
  conclusion : Option String
deriving Repr, DecidableEq

/-- A deployment, restricted to the fields the script reads.
`creator_login` is `dep.get('creator', {}).get('login')`; `created_at` is the
parsed creation timestamp (epoch seconds); `environment` is
`dep.get('environment')`. -/
structure Deployment where
  id : Option Nat
  creator_login : Option String
  created_at : Option Int
  environment : Option String
deriving Repr, DecidableEq

/-- One entry of a deployment's status history.  `created_at` is kept as the
raw string the API returned, because `extract_approval_info` never parses it,
it only copies it into the approvals list. -/
structure DeploymentStatus where
  state : Option String
  creator_login : Option String
  created_at : Option String
deriving Repr, DecidableEq

/-- An environment configuration; the script only reads
`env.get('protection_rules', [])`.  Individual rules are opaque here (the
script never inspects them), so they are modelled as strings. -/
structure Environment where
  protection_rules : List String
deriving Repr, DecidableEq

/-- One review record of a workflow run, as consumed by `main`:
`state` is `r.get('state')`; `user` is the login carried by `r['user']` when a
(non-empty) user object is present, `none` when `r.get('user')` is falsy;
`comment` is `r.get('comment')`. -/
structure Review where
  state : Option String
  user : Option String
  comment : Option String
deriving Repr, DecidableEq

/-- Python's `a or b` on two optional strings: `a` unless it is `None` or the
empty string, else `b`.  Used for `run.get('name') or run.get('workflow_name')`
and `run.get('conclusion') or run.get('status')`. -/
def pyOr (a b : Option String) : Option String :=
  match a with
  | some s => if s = "" then b else some s
  | none => b

/-! ### Correlation engine: `match_deployments_to_workflow_run` -/

/-- The body of the `for dep in deployments` loop of
`match_deployments_to_workflow_run`: skip a deployment without `created_at`,
append it when `dep_creator == run_actor` (Python `==`, where `None == None`
holds) and the absolute time difference is under 300 seconds. -/
def matchLoop (run_actor : Option String) (run_time : Int) :
    List Deployment → List Deployment
  | [] => []
  | dep :: rest =>
    match dep.created_at with
    | none => matchLoop run_actor run_time rest
    | some dep_time =>
      if dep.creator_login = run_actor ∧ (dep_time - run_time).natAbs < 300 then
        dep :: matchLoop run_actor run_time rest
      else
        matchLoop run_actor run_time rest

/-- `match_deployments_to_workflow_run(workflow_run, deployments)`: returns
`[]` when the run has no `created_at`, otherwise filters the deployments by
the actor/time heuristic. -/
def match_deployments_to_workflow_run (workflow_run : WorkflowRun)
    (deployments : List Deployment) : List Deployment :=
  match workflow_run.created_at with
  | none => []
  | some run_time => matchLoop workflow_run.actor_login run_time deployments

/-- The matching predicate of the claim, stated independently of the loop:
both timestamps present, creator login equals actor login (absent compared
equal), strict 300-second window. -/
def matchesRun (run : WorkflowRun) (dep : Deployment) : Bool :=
  match run.created_at, dep.created_at with
  | some run_time, some dep_time =>
    dep.creator_login = run.actor_login ∧ (dep_time - run_time).natAbs < 300
  | _, _ => false

/-! ### Deployment status / approval extractor: `extract_approval_info` -/

/-- The terminal status set of the reverse scan in `extract_approval_info`:
`['success', 'failure', 'inactive', 'error']`. -/
def terminal_states : List String := ["success", "failure", "inactive", "error"]

/-- The `for status in reversed(statuses)` loop of `extract_approval_info`:
return the first state found in `terminal_states` (the argument list is the
already-reversed history), `none` when no entry qualifies. -/
def findFinalStatus : List DeploymentStatus → Option String
  | [] => none
  | s :: rest =>
    match s.state with
    | some st => if st ∈ terminal_states then some st else findFinalStatus rest
    | none => findFinalStatus rest

/-- `extract_approval_info(statuses)`: the approvals list (entries with state
`'approved'`, projected to `(creator, created_at)`, chronological order) and
the final status (reverse scan for a terminal state, falling back to the last
entry's state when none is found and the list is non-empty). -/
def extract_approval_info (statuses : List DeploymentStatus) :
    List (Option String × Option String) × Option String :=
  let approvals := (statuses.filter (fun s => s.state = some "approved")).map
    (fun s => (s.creator_login, s.created_at))
  let final_status := findFinalStatus statuses.reverse
  let final_status :=
    if final_status = none ∧ statuses ≠ [] then
      statuses.getLast?.bind DeploymentStatus.state
    else final_status
  (approvals, final_status)

/-- Whether a status entry's state lies in the terminal set (entries without a
state never do, matching Python's `None in [...]` being false). -/
def isTerminalEntry (s : DeploymentStatus) : Bool :=
  (s.state.map (terminal_states.contains ·)).getD false

/-! ### Run-review fields: `approved_by` / `approval_comment` in `main` -/

/-- The review aggregation of `main` (the `if reviews:` block): the
comma-joined logins of records with state `'approved'` and a present user
object, and the pipe-joined non-empty comments of records with state
`'approved'`, both in record order and without deduplication. -/
def compute_review_fields (reviews : List Review) : String × String :=
  if reviews = [] then ("", "")
  else
    let approved_reviewers := reviews.filterMap
      (fun r => if r.state = some "approved" then r.user else none)
    let approval_comments := reviews.filterMap
      (fun r =>
        if r.state = some "approved" ∧ r.comment.getD "" ≠ "" then r.comment
        else none)
    (String.intercalate ", " approved_reviewers,
     String.intercalate " | " approval_comments)

/-! ### Rate-limited API client: `github_api_get` -/

/-- An HTTP response as `github_api_get` inspects it.
`rateLimitRemainingZero` models `'X-RateLimit-Remaining' in response.headers
and response.headers['X-RateLimit-Remaining'] == '0'`;
`rateLimitReset` is the parsed `X-RateLimit-Reset` header when present;
`jsonBody` is `some body` when `response.json()` succeeds (the body itself is
opaque here), `none` when the body is not valid JSON. -/
structure HttpResponse where
  status : Nat
  rateLimitRemainingZero : Bool
  rateLimitReset : Option Int
  jsonBody : Option Nat
deriving Repr, DecidableEq

/-- The rate-limit branch guard of `github_api_get`: status 403 with a zero
remaining-quota header. -/
def isRateLimited (r : HttpResponse) : Bool :=
  r.status == 403 && r.rateLimitRemainingZero

/-- `response.raise_for_status()` followed by `response.json()`:
yields the body only for a non-error status with a JSON body (the `except`
branch fires both for `HTTPError` and for a JSON decoding failure). -/
def raiseForStatusJson (r : HttpResponse) : Option Nat :=
  if r.status < 400 then r.jsonBody else none

/-- The `for attempt in range(max_retries)` loop of `github_api_get`.
`responses i` is the response to the `i`-th issued request (all to the same
URL and params), `now i` the value of `int(time.time())` at that request.
Returns the parsed body (`none` models the final `return {}` after the loop
exhausts) together with the list of `time.sleep` durations performed.
Note that the rate-limit branch's `continue` advances the loop, so it
consumes an attempt exactly like the generic-error branch. -/
def github_api_get_loop (responses : Nat → HttpResponse) (now : Nat → Int) :
    Nat → Nat → Option Nat × List Int
  | 0, _ => (none, [])
  | fuel + 1, i =>
    let r := responses i
    if isRateLimited r then
      let reset_time := r.rateLimitReset.getD (now i + 60)
      let sleep_for := max (reset_time - now i) 1
      let rest := github_api_get_loop responses now fuel (i + 1)
      (rest.1, sleep_for :: rest.2)
    else
      match raiseForStatusJson r with
      | some body => (some body, [])
      | none =>
        let rest := github_api_get_loop responses now fuel (i + 1)
        (rest.1, 2 :: rest.2)

/-- `github_api_get(url, params, max_retries)`: run the retry loop from the
first request with the full attempt budget (defaulting to 3 in the script). -/
def github_api_get (responses : Nat → HttpResponse) (now : Nat → Int)
    (max_retries : Nat) : Option Nat × List Int :=
  github_api_get_loop responses now max_retries 0

/-- A 403 rate-limited response whose reset header is 42 seconds ahead of the
request time, used as the concrete counterexample response. -/
def rlResponse : HttpResponse :=
  { status := 403, rateLimitRemainingZero := true,
    rateLimitReset := some 1042, jsonBody := none }

/-- A successful response with a JSON body. -/
def okResponse : HttpResponse :=
  { status := 200, rateLimitRemainingZero := false,
    rateLimitReset := none, jsonBody := some 7 }

/-! ### Paginated listings -/

/-- The exception raised by `response.raise_for_status()` (an `HTTPError`
carrying the response status) or by JSON decoding of a page body. -/
structure ApiError where
  status : Nat
deriving Repr, DecidableEq

/-- The shared `while url:` pagination loop of `list_org_repos`,
`list_deployments` and `list_deployment_statuses`: fetch page `i`
(`requests.get` + `raise_for_status`, so a failed page raises and the raise
propagates out of the loop), extend the accumulator, follow the `next` link
while present.  `fuel` bounds the recursion; the script's loop terminates
because the server's collection is finite. -/
def paginate {α : Type} (pages : Nat → Except ApiError (List α × Bool)) :
    Nat → Nat → Except ApiError (List α)
  | 0, _ => .ok []
  | fuel + 1, i =>
    match pages i with
    | .error e => .error e
    | .ok (items, hasNext) =>
      if hasNext then
        match paginate pages fuel (i + 1) with
        | .error e => .error e
        | .ok rest => .ok (items ++ rest)
      else .ok items

/-- `list_deployments(repo_full_name)`: paginate the repository's deployments
from the first page; any page failure raises. -/
def list_deployments (pages : Nat → Except ApiError (List Deployment × Bool))
    (fuel : Nat) : Except ApiError (List Deployment) :=
  paginate pages fuel 0

/-- The per-run date filter of `list_workflow_runs`:
`if created_at and start <= created_at <= end` (string comparison of ISO
timestamps, which is chronological; here on the epoch-seconds model). -/
def runInWindow (start_date end_date : Int) (run : WorkflowRun) : Bool :=
  match run.created_at with
  | some t => start_date ≤ t ∧ t ≤ end_date
  | none => false

/-- `list_workflow_runs(repo_full_name, start, end)`: paginate
`actions/runs`, keeping only runs inside the date window; any page failure
raises. -/
def list_workflow_runs_loop (pages : Nat → Except ApiError (List WorkflowRun × Bool))
    (start_date end_date : Int) : Nat → Nat → Except ApiError (List WorkflowRun)
  | 0, _ => .ok []
  | fuel + 1, i =>
    match pages i with
    | .error e => .error e
    | .ok (page_runs, hasNext) =>
      let kept := page_runs.filter (runInWindow start_date end_date)
      if hasNext then
        match list_workflow_runs_loop pages start_date end_date fuel (i + 1) with
        | .error e => .error e
        | .ok rest => .ok (kept ++ rest)
      else .ok kept

/-! ### Run review fetch: `get_workflow_run_reviews` -/

/-- The JSON body shapes `get_workflow_run_reviews` distinguishes with
`isinstance`: a list of records, a dict (read through
`data.get('environment_reviews', [])`), or anything else. -/
inductive ReviewsBody where
  | list (records : List Review)
  | dict (environment_reviews : Option (List Review))
  | other
deriving Repr, DecidableEq

/-- The response to the single `actions/runs/{run_id}/approvals` request:
its status and its body (`none` when the body is not valid JSON). -/
structure ReviewsResponse where
  status : Nat
  body : Option ReviewsBody
deriving Repr, DecidableEq

/-- `get_workflow_run_reviews(repo_full_name, run_id)`: a 404 yields `[]`
("no reviews for this run"); any other error status raises
(`raise_for_status`), as does a non-JSON body; a list body is returned as is,
a dict body is read through `environment_reviews` (defaulting to `[]`), and
any other JSON value yields `[]`. -/
def get_workflow_run_reviews (resp : ReviewsResponse) :
    Except ApiError (List Review) :=
  if resp.status = 404 then .ok []
  else if 400 ≤ resp.status then .error ⟨resp.status⟩
  else
    match resp.body with
    | none => .error ⟨resp.status⟩
    | some (.list records) => .ok records
    | some (.dict er) => .ok (er.getD [])
    | some .other => .ok []

/-! ### Environment protection and per-deployment status resolution -/

/-- `environment_has_protection_rules(env)`:
`bool(env.get('protection_rules', []))` — true iff the rule list is
non-empty, whatever the rule types are. -/
def environment_has_protection_rules (env : Environment) : Bool :=
  !env.protection_rules.isEmpty

/-- The per-repository I/O oracles used inside `main`'s deployment loop:
`get_environment(repo, name)` raises or returns the configuration;
`list_deployment_statuses(repo, dep_id)` (itself the `paginate` loop over the
status pages) raises or returns the full history, keyed by the deployment's
optional id. -/
structure Oracles where
  get_environment : String → Except ApiError Environment
  list_deployment_statuses : Option Nat → Except ApiError (List DeploymentStatus)

/-- The body of `main`'s `for dep in matched_deployments` status resolution:
`dep_status` starts as `''`; when `dep.get('environment')` is truthy, the
environment is fetched and, only if it has protection rules, the status
history is fetched and `extract_approval_info` provides the final status; any
exception in the `try` block is caught and leaves `dep_status` as `''`. -/
def resolve_dep_status (o : Oracles) (dep : Deployment) : Option String :=
  let dep_status : Option String := some ""
  match dep.environment with
  | none => dep_status
  | some environment =>
    if environment = "" then dep_status
    else
      match o.get_environment environment with
      | .error _ => dep_status
      | .ok env_details =>
        if environment_has_protection_rules env_details then
          match o.list_deployment_statuses dep.id with
          | .error _ => dep_status
          | .ok statuses => (extract_approval_info statuses).2
        else dep_status

/-! ### Report row assembly in `main` -/

/-- One CSV row of the report, with the fields `main` writes.  Fields that
Python may leave as `None` are `Option`-valued; `deployment_status` is
`some ""` for the literal empty string and `none` when
`extract_approval_info` produced `None`. -/
structure ReportRow where
  workflow_run_id : Option Nat
  workflow_name : Option String
  triggered_by : Option String
  triggered_at : Option Int
  deployment_approved_by : String
  approval_comment : String
  final_status : Option String
  deployment_status : Option String
deriving Repr, DecidableEq

/-- The row dictionary built in `main`: run-level fields plus the given
deployment status. -/
def mk_report_row (run : WorkflowRun) (approved_by approval_comment : String)
    (dep_status : Option String) : ReportRow :=
  { workflow_run_id := run.id,
    workflow_name := pyOr run.name run.workflow_name,
    triggered_by := run.actor_login,
    triggered_at := run.created_at,
    deployment_approved_by := approved_by,
    approval_comment := approval_comment,
    final_status := pyOr run.conclusion run.status,
    deployment_status := dep_status }

/-- The row-emission block of `main` for one run: one row with an empty
deployment-status field when no deployment matched, else one row per matched
deployment with its resolved status. -/
def assemble_rows (run : WorkflowRun) (reviews : List Review)
    (matched : List Deployment) (resolve : Deployment → Option String) :
    List ReportRow :=
  let fields := compute_review_fields reviews
  (if matched.isEmpty then [mk_report_row run fields.1 fields.2 (some "")]
   else [])
    ++ matched.map (fun dep => mk_report_row run fields.1 fields.2 (resolve dep))

/-! ### Per-repository processing in `main` -/

/-- All I/O oracles of one repository iteration of `main`:
the workflow-run pages, the deployment pages, the reviews response per run
id, and the environment/status oracles. -/
structure RepoOracles where
  workflow_run_pages : Nat → Except ApiError (List WorkflowRun × Bool)
  deployment_pages : Nat → Except ApiError (List Deployment × Bool)
  reviews_response : Option Nat → ReviewsResponse
  env_status : Oracles

/-- The `for run in workflow_runs` loop of `main`: fetch the run's reviews
(a raise there propagates), correlate the deployments, assemble the rows. -/
def process_runs (ro : RepoOracles) (deployments : List Deployment) :
    List WorkflowRun → Except ApiError (List ReportRow)
  | [] => .ok []
  | run :: rest =>
    match get_workflow_run_reviews (ro.reviews_response run.id) with
    | .error e => .error e
    | .ok reviews =>
      match process_runs ro deployments rest with
      | .error e => .error e
      | .ok more =>
        .ok (assemble_rows run reviews
              (match_deployments_to_workflow_run run deployments)
              (resolve_dep_status ro.env_status) ++ more)

/-- One iteration of `main`'s `for repo in repos` loop: fetch the runs in
the window, fetch all deployments, then process each run.  The listing calls
are outside any `try`, so their raises propagate and abort the whole
iteration (indeed the whole script). -/
def process_repo (ro : RepoOracles) (start_date end_date : Int) (fuel : Nat) :
    Except ApiError (List ReportRow) :=
  match list_workflow_runs_loop ro.workflow_run_pages start_date end_date fuel 0 with
  | .error e => .error e
  | .ok workflow_runs =>
    match list_deployments ro.deployment_pages fuel with
    | .error e => .error e
    | .ok deployments => process_runs ro deployments workflow_runs

/-! ### Concrete fixtures for counterexamples and witnesses -/

/-- A workflow run by `alice`, used in several concrete instances. -/
def aliceRun : WorkflowRun :=
  { id := some 1, name := some "deploy", workflow_name := none,
    actor_login := some "alice", created_at := some 1000,
    status := some "completed", conclusion := some "success" }

/-- A deployment by `alice` 120 seconds after `aliceRun`. -/
def aliceDep : Deployment :=
  { id := some 10, creator_login := some "alice", created_at := some 1120,
    environment := some "prod" }

/-- A run still in progress: no conclusion yet. -/
def inProgressRun : WorkflowRun :=
  { id := some 3, name := some "ci", workflow_name := none,
    actor_login := some "bob", created_at := some 2000,
    status := some "in_progress", conclusion := none }

/-- A reviews response: status 200 with an empty list body. -/
def emptyReviewsResponse : ReviewsResponse :=
  { status := 200, body := some (.list []) }

/-- Environment/status oracles whose every call fails, exercising the caught
branches of the resolution block. -/
def failingEnvOracles : Oracles :=
  { get_environment := fun _ => .error ⟨500⟩,
    list_deployment_statuses := fun _ => .error ⟨500⟩ }

/-- Repository oracles where the listings succeed (one page each, one run and
one matching deployment) but every environment fetch fails. -/
def okRepoOracles : RepoOracles :=
  { workflow_run_pages := fun _ => .ok ([aliceRun], false),
    deployment_pages := fun _ => .ok ([aliceDep], false),
    reviews_response := fun _ => emptyReviewsResponse,
    env_status := failingEnvOracles }

/-- The same repository oracles except that the deployments listing fails
with a 500 on its first page. -/
def depFailRepoOracles : RepoOracles :=
  { okRepoOracles with deployment_pages := fun _ => .error ⟨500⟩ }

/-- Oracles for an unprotected environment whose status history nevertheless
ends in `success` — used to show that the status history is ignored when no
protection rule is configured. -/
def unprotectedEnvOracles : Oracles :=
  { get_environment := fun _ => .ok { protection_rules := [] },
    list_deployment_statuses := fun _ =>
      .ok [ { state := some "success", creator_login := some "carol",
              created_at := some "t1" } ] }

/-- Oracles for a protected environment (one `required_reviewers` rule) with
an `approved`-then-`success` status history — the case where the history is
fetched and its resolved final status reaches the row. -/
def protectedEnvOracles : Oracles :=
  { get_environment := fun _ => .ok { protection_rules := ["required_reviewers"] },
    list_deployment_statuses := fun _ =>
      .ok [ { state := some "approved", creator_login := some "carol",
              created_at := some "t1" },
            { state := some "success", creator_login := none,
              created_at := some "t2" } ] }

/-! ## Theorems -/

/-! ### Correlation engine -/

lemma matchLoop_eq_filter (a : Option String) (t : Int) (ds : List Deployment) :
    matchLoop a t ds
      = ds.filter (fun d =>
          match d.created_at with
          | some dt => decide (d.creator_login = a ∧ (dt - t).natAbs < 300)
          | none => false) := by
  induction ds with
  | nil => rfl
  | cons dep rest ih =>
    rcases h : dep.created_at with _ | dt
    · simp only [matchLoop, h, List.filter_cons, ih]
      simp
    · simp only [matchLoop, h, List.filter_cons, ih]
      by_cases hc : dep.creator_login = a ∧ (dt - t).natAbs < 300
      · simp [hc]
      · simp [hc]

/-- The correlation function, characterised as a filter by `matchesRun`
(shared helper for the theorems below). -/
lemma match_deployments_eq_filter (run : WorkflowRun) (ds : List Deployment) :
    match_deployments_to_workflow_run run ds = ds.filter (matchesRun run) := by
  rcases hr : run.created_at with _ | rt
  · simp only [match_deployments_to_workflow_run, hr]
    symm
    rw [List.filter_eq_nil_iff]
    intro d _
    simp [matchesRun, hr]
  · simp only [match_deployments_to_workflow_run, hr, matchLoop_eq_filter]
    congr 1
    funext d
    rcases hd : d.created_at with _ | dt <;> simp [matchesRun, hr, hd]

/-- C1: `match_deployments_to_workflow_run` returns exactly the
subsequence of deployments satisfying the claim's predicate: creator login
equal to the run's actor login and timestamps strictly within 300 seconds;
a run lacking `created_at` matches nothing and deployments lacking
`created_at` are skipped (the predicate is false for them), and the bound is
strictly exclusive (a difference of exactly 300 seconds never matches). -/
theorem c1_match_is_exact_filter (run : WorkflowRun) (ds : List Deployment) :
    match_deployments_to_workflow_run run ds = ds.filter (matchesRun run)
      ∧ (run.created_at = none → match_deployments_to_workflow_run run ds = [])
      ∧ (∀ d ∈ ds, ∀ rt dt, run.created_at = some rt → d.created_at = some dt →
          (dt - rt).natAbs = 300 → d ∉ match_deployments_to_workflow_run run ds) := by
  have hmain := match_deployments_eq_filter run ds
  refine ⟨hmain, ?_, ?_⟩
  · intro hr
    simp [match_deployments_to_workflow_run, hr]
  · intro d _ rt dt hr hd h300
    rw [hmain, List.mem_filter]
    rintro ⟨-, hm⟩
    simp only [matchesRun, hr, hd, decide_eq_true_eq] at hm
    omega

/-- Witness for C1: a concrete run and deployment list, exercising a match at
299 seconds, a skip at exactly 300 seconds, and a skipped timestamp-less
deployment. -/
theorem c1_match_is_exact_filter_witness :
    match_deployments_to_workflow_run
        { id := some 1, name := none, workflow_name := none,
          actor_login := some "alice", created_at := some 1000,
          status := none, conclusion := none }
        [ { id := some 10, creator_login := some "alice", created_at := some 1299,
            environment := some "prod" },
          { id := some 11, creator_login := some "alice", created_at := some 1300,
            environment := some "prod" },
          { id := some 12, creator_login := some "alice", created_at := none,
            environment := some "prod" } ]
      = [ { id := some 10, creator_login := some "alice", created_at := some 1299,
            environment := some "prod" } ] := by
  have h := c1_match_is_exact_filter
    { id := some 1, name := none, workflow_name := none,
      actor_login := some "alice", created_at := some 1000,
      status := none, conclusion := none }
    [ { id := some 10, creator_login := some "alice", created_at := some 1299,
        environment := some "prod" },
      { id := some 11, creator_login := some "alice", created_at := some 1300,
        environment := some "prod" },
      { id := some 12, creator_login := some "alice", created_at := none,
        environment := some "prod" } ]
  rw [h.1]
  decide

/-- C9: Missing identities compare equal: when the run's actor login and a
deployment's creator login are both absent (`None == None` in Python), the
creator-equals-actor condition holds, so the deployment is matched whenever
both timestamps are present and within 300 seconds. -/
theorem c9_missing_identities_match (run : WorkflowRun) (dep : Deployment)
    (ds : List Deployment) (rt dt : Int)
    (hactor : run.actor_login = none) (hcreator : dep.creator_login = none)
    (hrt : run.created_at = some rt) (hdt : dep.created_at = some dt)
    (hwin : (dt - rt).natAbs < 300) (hmem : dep ∈ ds) :
    dep ∈ match_deployments_to_workflow_run run ds := by
  rw [match_deployments_eq_filter run ds, List.mem_filter]
  refine ⟨hmem, ?_⟩
  simp [matchesRun, hrt, hdt, hactor, hcreator, hwin]

/-- Witness for C9: an actor-less run matched to a creator-less deployment
60 seconds apart. -/
theorem c9_missing_identities_match_witness :
    ({ id := some 20, creator_login := none, created_at := some 1060,
       environment := none } : Deployment)
      ∈ match_deployments_to_workflow_run
          { id := some 2, name := none, workflow_name := none,
            actor_login := none, created_at := some 1000,
            status := none, conclusion := none }
          [ { id := some 20, creator_login := none, created_at := some 1060,
              environment := none } ] :=
  c9_missing_identities_match _ _ _ 1000 1060 rfl rfl rfl rfl
    (by decide) (List.mem_singleton.mpr rfl)

/-! ### Status extractor -/

lemma findFinalStatus_eq_find (l : List DeploymentStatus) :
    findFinalStatus l = (l.find? isTerminalEntry).bind DeploymentStatus.state := by
  induction l with
  | nil => rfl
  | cons s rest ih =>
    rcases hs : s.state with _ | st
    · simp [findFinalStatus, hs, List.find?_cons, isTerminalEntry, ih]
    · by_cases hterm : st ∈ terminal_states
      · simp [findFinalStatus, hs, List.find?_cons, isTerminalEntry, hterm]
      · simp [findFinalStatus, hs, List.find?_cons, isTerminalEntry, hterm, ih]

lemma findFinalStatus_mem_terminal (l : List DeploymentStatus) (st : String)
    (h : findFinalStatus l = some st) : st ∈ terminal_states := by
  induction l with
  | nil => simp [findFinalStatus] at h
  | cons s rest ih =>
    rcases hs : s.state with _ | st'
    · exact ih (by simpa [findFinalStatus, hs] using h)
    · by_cases hterm : st' ∈ terminal_states
      · simp only [findFinalStatus, hs, if_pos hterm, Option.some.injEq] at h
        exact h ▸ hterm
      · exact ih (by simpa [findFinalStatus, hs, hterm] using h)

/-- C3: `extract_approval_info` returns as final status the state of the
first entry, scanning in reverse, whose state is terminal; with no such entry
it falls back to the last entry's state (so `[queued, failure, success]`
yields `success` and `[queued, approved, waiting]` yields `waiting`); and its
approvals are the `approved` entries projected to `(creator, created_at)` in
original order. -/
theorem c3_extract_approval_info_spec (statuses : List DeploymentStatus) :
    (extract_approval_info statuses).1
        = (statuses.filter (fun s => s.state = some "approved")).map
            (fun s => (s.creator_login, s.created_at))
      ∧ (extract_approval_info statuses).2
        = (match statuses.reverse.find? isTerminalEntry with
           | some s => s.state
           | none => statuses.getLast?.bind DeploymentStatus.state)
      ∧ (extract_approval_info
          [ { state := some "queued", creator_login := none, created_at := none },
            { state := some "failure", creator_login := none, created_at := none },
            { state := some "success", creator_login := none, created_at := none } ]).2
        = some "success"
      ∧ (extract_approval_info
          [ { state := some "queued", creator_login := none, created_at := none },
            { state := some "approved", creator_login := none, created_at := none },
            { state := some "waiting", creator_login := none, created_at := none } ]).2
        = some "waiting" := by
  refine ⟨rfl, ?_, by decide, by decide⟩
  simp only [extract_approval_info]
  rcases hf : statuses.reverse.find? isTerminalEntry with _ | s
  · have hnone : findFinalStatus statuses.reverse = none := by
      rw [findFinalStatus_eq_find, hf]; rfl
    by_cases he : statuses = []
    · subst he
      simp [findFinalStatus]
    · simp [hnone, he]
  · have hstate : ∃ st, s.state = some st ∧ st ∈ terminal_states := by
      have hpred := List.find?_some hf
      rcases hs : s.state with _ | st
      · simp [isTerminalEntry, hs] at hpred
      · exact ⟨st, rfl, by simpa [isTerminalEntry, hs] using hpred⟩
    rcases hstate with ⟨st, hst, -⟩
    have hsome : findFinalStatus statuses.reverse = some st := by
      rw [findFinalStatus_eq_find, hf]
      exact hst
    simp [hsome, hst]

/-! ### Review fields -/

/-- C8 counterexample: Two `approved` records by the same login `alice`
produce the approver string `"alice, alice"`: the login appears twice, so the
emitted string is not the comma-join of *distinct* logins (which would be
`"alice"`). -/
theorem c8_duplicate_approver_counterexample :
    (compute_review_fields
        [ { state := some "approved", user := some "alice", comment := none },
          { state := some "approved", user := some "alice", comment := none } ]).1
        = "alice, alice"
      ∧ ("alice, alice" : String) ≠ "alice" := by
  constructor
  · rfl
  · decide

/-- C8 amended: The approver string is the comma-joined (`", "`) logins of
records with state `'approved'` and a present user, in record order and with
duplicates preserved; the approval-comment string is the `" | "`-joined
non-empty comment fields of records with state `'approved'`. -/
theorem c8_review_fields_spec (reviews : List Review) :
    (compute_review_fields reviews).1
        = String.intercalate ", "
            ((reviews.filter (fun r => r.state = some "approved" ∧ r.user.isSome)).map
              (fun r => r.user.getD ""))
      ∧ (compute_review_fields reviews).2
        = String.intercalate " | "
            ((reviews.filter
                (fun r => r.state = some "approved" ∧ r.comment.getD "" ≠ "")).map
              (fun r => r.comment.getD "")) := by
  have hrev : ∀ rs : List Review,
      rs.filterMap (fun r => if r.state = some "approved" then r.user else none)
        = (rs.filter (fun r => r.state = some "approved" ∧ r.user.isSome)).map
            (fun r => r.user.getD "") := by
    intro rs
    induction rs with
    | nil => rfl
    | cons r rest ih =>
      by_cases hst : r.state = some "approved"
      · rcases hu : r.user with _ | u
        · simp [List.filterMap_cons, List.filter_cons, hst, hu, ih]
        · simp [List.filterMap_cons, List.filter_cons, hst, hu, ih]
      · simp [List.filterMap_cons, List.filter_cons, hst, ih]
  have hcom : ∀ rs : List Review,
      rs.filterMap
          (fun r =>
            if r.state = some "approved" ∧ r.comment.getD "" ≠ "" then r.comment
            else none)
        = (rs.filter (fun r => r.state = some "approved" ∧ r.comment.getD "" ≠ "")).map
            (fun r => r.comment.getD "") := by
    intro rs
    induction rs with
    | nil => rfl
    | cons r rest ih =>
      by_cases hc : r.state = some "approved" ∧ r.comment.getD "" ≠ ""
      · obtain ⟨hst, hne⟩ := hc
        rcases hcm : r.comment with _ | c
        · rw [hcm] at hne
          simp at hne
        · rw [hcm] at hne
          simp only [Option.getD_some, ne_eq] at hne
          simp [List.filterMap_cons, List.filter_cons, hst, hcm, hne, ih]
      · simp [List.filterMap_cons, List.filter_cons, hc, ih]
  rcases hr : reviews with _ | ⟨r, rest⟩
  · exact ⟨rfl, rfl⟩
  · constructor
    · show String.intercalate ", " ((r :: rest).filterMap _) = _
      rw [hrev]
    · show String.intercalate " | " ((r :: rest).filterMap _) = _
      rw [hcom]

/-! ### Rate-limited client -/

/-- C4 counterexample: Three consecutive rate-limit responses exhaust a
`max_retries = 3` budget: the call gives up and returns the empty result
(after three rate-limit sleeps) even though the very next request would have
succeeded — so rate-limit retries do count against the bounded retry budget,
contradicting the claim that arbitrarily many consecutive rate-limit
responses never exhaust the attempt count. -/
theorem c4_rate_limit_counts_counterexample :
    github_api_get (fun i => if i < 3 then rlResponse else okResponse)
        (fun _ => 1000) 3
      = (none, [42, 42, 42]) := by
  decide

/-- C4 amended: On HTTP 403 with a zero remaining-quota header the client
computes `wait = max(reset_epoch - now, 1)` (defaulting the reset to
`now + 60` when the header is absent), sleeps for that wait, and retries the
same request — but this retry consumes one unit of the `max_retries` attempt
budget, so `max_retries` consecutive rate-limited responses exhaust the
budget and the call returns the empty result. -/
theorem c4_rate_limit_wait_and_retry (responses : Nat → HttpResponse)
    (now : Nat → Int) (fuel i : Nat)
    (h : isRateLimited (responses i) = true) :
    github_api_get_loop responses now (fuel + 1) i
        = (let reset_time := (responses i).rateLimitReset.getD (now i + 60)
           let rest := github_api_get_loop responses now fuel (i + 1)
           (rest.1, max (reset_time - now i) 1 :: rest.2))
      ∧ ((∀ j, isRateLimited (responses j) = true) →
          ∀ m k, (github_api_get_loop responses now m k).1 = none) := by
  constructor
  · simp only [github_api_get_loop, h, if_pos]
  · intro hall m
    induction m with
    | zero => intro k; rfl
    | succ m ih =>
      intro k
      simp only [github_api_get_loop, hall k, if_pos]
      exact ih (k + 1)

/-- Witness for the amended C4: at a concrete always-rate-limited stream with
reset 42 seconds ahead, one step sleeps exactly 42 seconds and the whole
budget ends with the empty result. -/
theorem c4_rate_limit_wait_and_retry_witness :
    github_api_get_loop (fun _ => rlResponse) (fun _ => 1000) 1 0
        = (let reset_time := (rlResponse).rateLimitReset.getD (1000 + 60)
           let rest := github_api_get_loop (fun _ => rlResponse) (fun _ => 1000) 0 1
           (rest.1, max (reset_time - 1000) 1 :: rest.2))
      ∧ (github_api_get_loop (fun _ => rlResponse) (fun _ => 1000) 3 0).1 = none := by
  have h := c4_rate_limit_wait_and_retry (fun _ => rlResponse) (fun _ => 1000) 0 0
    (by decide)
  exact ⟨h.1, h.2 (fun _ => rfl) 3 0⟩

/-! ### Row assembler -/

/-- Every emitted row of one run is `mk_report_row` of that run's fields with
some deployment-status value (shared helper). -/
lemma assemble_rows_mem (run : WorkflowRun) (reviews : List Review)
    (matched : List Deployment) (resolve : Deployment → Option String)
    (row : ReportRow) (h : row ∈ assemble_rows run reviews matched resolve) :
    ∃ ds, row = mk_report_row run (compute_review_fields reviews).1
      (compute_review_fields reviews).2 ds := by
  simp only [assemble_rows] at h
  rcases List.mem_append.mp h with h1 | h2
  · rcases matched with _ | ⟨d, rest⟩
    · exact ⟨some "", by simpa using h1⟩
    · simp at h1
  · rcases List.mem_map.mp h2 with ⟨dep, -, hd⟩
    exact ⟨resolve dep, hd.symm⟩

/-- C2: For a run with N matched deployments the assembler emits exactly
`max(N, 1)` rows: exactly the one row with an empty deployment-status field
when N = 0, exactly one row per matched deployment (in order) when N > 0,
and every row carries the same run-level fields (run id, workflow name,
actor, trigger time, approver string, approval comments, run status). -/
theorem c2_assembler_emits_max_n_1_rows (run : WorkflowRun)
    (reviews : List Review) (matched : List Deployment)
    (resolve : Deployment → Option String) :
    (assemble_rows run reviews matched resolve).length = max matched.length 1
      ∧ (matched = [] →
          assemble_rows run reviews matched resolve
            = [mk_report_row run (compute_review_fields reviews).1
                (compute_review_fields reviews).2 (some "")])
      ∧ (matched ≠ [] →
          assemble_rows run reviews matched resolve
            = matched.map (fun dep =>
                mk_report_row run (compute_review_fields reviews).1
                  (compute_review_fields reviews).2 (resolve dep)))
      ∧ (∀ row ∈ assemble_rows run reviews matched resolve,
          row.workflow_run_id = run.id
            ∧ row.workflow_name = pyOr run.name run.workflow_name
            ∧ row.triggered_by = run.actor_login
            ∧ row.triggered_at = run.created_at
            ∧ row.deployment_approved_by = (compute_review_fields reviews).1
            ∧ row.approval_comment = (compute_review_fields reviews).2
            ∧ row.final_status = pyOr run.conclusion run.status) := by
  refine ⟨?_, ?_, ?_, ?_⟩
  · rcases matched with _ | ⟨d, rest⟩
    · rfl
    · have hmax : max (rest.length + 1) 1 = rest.length + 1 :=
        Nat.max_eq_left (Nat.succ_le_succ (Nat.zero_le _))

      simp [assemble_rows, hmax]
  · intro h
    subst h
    rfl
  · intro h
    rcases matched with _ | ⟨d, rest⟩
    · exact absurd rfl h
    · simp [assemble_rows]
  · intro row hrow
    obtain ⟨ds, rfl⟩ := assemble_rows_mem run reviews matched resolve row hrow
    exact ⟨rfl, rfl, rfl, rfl, rfl, rfl, rfl⟩

/-- Witness for C2: row counts and the N = 0 row at concrete inputs
(`aliceRun` with zero and with one matched deployment). -/
theorem c2_assembler_emits_max_n_1_rows_witness :
    (assemble_rows aliceRun [] [] (fun _ => some "")).length
        = max ([] : List Deployment).length 1
      ∧ assemble_rows aliceRun [] [] (fun _ => some "")
        = [mk_report_row aliceRun (compute_review_fields []).1
            (compute_review_fields []).2 (some "")]
      ∧ (assemble_rows aliceRun [] [aliceDep] (fun _ => some "")).length
        = max [aliceDep].length 1 :=
  ⟨(c2_assembler_emits_max_n_1_rows aliceRun [] [] (fun _ => some "")).1,
   (c2_assembler_emits_max_n_1_rows aliceRun [] [] (fun _ => some "")).2.1 rfl,
   (c2_assembler_emits_max_n_1_rows aliceRun [] [aliceDep] (fun _ => some "")).1⟩

/-- C10: Every emitted row's run-status field is
`run.get('conclusion') or run.get('status')`: the conclusion when that is a
non-empty string, else the status — so a not-yet-concluded run shows its
transient status (e.g. `in_progress`) in that column. -/
theorem c10_run_status_conclusion_fallback (run : WorkflowRun)
    (reviews : List Review) (matched : List Deployment)
    (resolve : Deployment → Option String) (row : ReportRow)
    (hrow : row ∈ assemble_rows run reviews matched resolve) :
    row.final_status = pyOr run.conclusion run.status
      ∧ (∀ c, run.conclusion = some c → c ≠ "" → row.final_status = some c)
      ∧ ((run.conclusion = none ∨ run.conclusion = some "") →
          row.final_status = run.status) := by
  obtain ⟨ds, rfl⟩ := assemble_rows_mem run reviews matched resolve row hrow
  refine ⟨rfl, ?_, ?_⟩
  · intro c hc hne
    simp [mk_report_row, pyOr, hc, hne]
  · rintro (hc | hc) <;> simp [mk_report_row, pyOr, hc]

/-- Witness for C10: a run with no conclusion and status `in_progress` emits
its single row with `in_progress` in the run-status column. -/
theorem c10_run_status_conclusion_fallback_witness :
    (mk_report_row inProgressRun (compute_review_fields []).1
        (compute_review_fields []).2 (some "")).final_status
      = some "in_progress" := by
  have h := c10_run_status_conclusion_fallback inProgressRun [] []
    (fun _ => some "")
    (mk_report_row inProgressRun (compute_review_fields []).1
      (compute_review_fields []).2 (some ""))
    (List.mem_singleton.mpr rfl)
  exact h.2.2 (Or.inl rfl)

/-! ### Environment protection gating -/

/-- C7: `environment_has_protection_rules` is true iff the protection-rule
list is non-empty (any rule type counting), and the status history is fetched
and a final status resolved only when it is: the row's deployment-status
field equals the history's resolved final status exactly in the
protected-and-fetchable case, while with no environment name, a failed
environment fetch, or an unprotected environment the field stays the empty
string for *every* status-history oracle (the history, whatever it is, is
never consulted), and a failed status fetch also leaves it empty. -/
theorem c7_protection_gates_status_resolution (o : Oracles) (dep : Deployment) :
    (∀ env, environment_has_protection_rules env = true ↔ env.protection_rules ≠ [])
      ∧ (∀ st : Option Nat → Except ApiError (List DeploymentStatus),
          dep.environment = none →
          resolve_dep_status ⟨o.get_environment, st⟩ dep = some "")
      ∧ (∀ st : Option Nat → Except ApiError (List DeploymentStatus),
          dep.environment = some "" →
          resolve_dep_status ⟨o.get_environment, st⟩ dep = some "")
      ∧ (∀ st : Option Nat → Except ApiError (List DeploymentStatus),
          ∀ environment e, dep.environment = some environment →
          o.get_environment environment = .error e →
          resolve_dep_status ⟨o.get_environment, st⟩ dep = some "")
      ∧ (∀ st : Option Nat → Except ApiError (List DeploymentStatus),
          ∀ environment env, dep.environment = some environment →
          environment ≠ "" →
          o.get_environment environment = .ok env → env.protection_rules = [] →
          resolve_dep_status ⟨o.get_environment, st⟩ dep = some "")
      ∧ (∀ environment env statuses, dep.environment = some environment →
          environment ≠ "" →
          o.get_environment environment = .ok env → env.protection_rules ≠ [] →
          o.list_deployment_statuses dep.id = .ok statuses →
          resolve_dep_status o dep = (extract_approval_info statuses).2)
      ∧ (∀ e, o.list_deployment_statuses dep.id = .error e →
          resolve_dep_status o dep = some "") := by
  refine ⟨?_, ?_, ?_, ?_, ?_, ?_, ?_⟩
  · intro env
    simp [environment_has_protection_rules, List.isEmpty_iff]
  · intro st h
    simp [resolve_dep_status, h]
  · intro st h
    simp [resolve_dep_status, h]
  · intro st environment e hdep herr
    by_cases he : environment = ""
    · simp [resolve_dep_status, hdep, he]
    · simp [resolve_dep_status, hdep, he, herr]
  · intro st environment env hdep hne hok hrules
    simp [resolve_dep_status, hdep, hne, hok,
      environment_has_protection_rules, hrules]
  · intro environment env statuses hdep hne hok hrules hst
    have hp : environment_has_protection_rules env = true := by
      simp [environment_has_protection_rules, List.isEmpty_iff, hrules]
    simp [resolve_dep_status, hdep, hne, hok, hp, hst]
  · intro e herr
    rcases hdep : dep.environment with _ | environment
    · simp [resolve_dep_status, hdep]
    · by_cases he : environment = ""
      · simp [resolve_dep_status, hdep, he]
      · cases hok : o.get_environment environment with
        | error e2 => simp [resolve_dep_status, hdep, he, hok]
        | ok env =>
          by_cases hp : environment_has_protection_rules env
          · simp [resolve_dep_status, hdep, he, hok, hp, herr]
          · simp [resolve_dep_status, hdep, he, hok, hp]

/-- Witness for C7: a deployment to an unprotected environment keeps an empty
deployment-status field although its history ends in `success`, while the
same deployment to a protected environment (one `required_reviewers` rule)
gets the history's resolved final status `success`. -/
theorem c7_protection_gates_status_resolution_witness :
    resolve_dep_status unprotectedEnvOracles aliceDep = some ""
      ∧ resolve_dep_status protectedEnvOracles aliceDep = some "success" := by
  have h1 := c7_protection_gates_status_resolution unprotectedEnvOracles aliceDep
  have h2 := c7_protection_gates_status_resolution protectedEnvOracles aliceDep
  constructor
  · exact h1.2.2.2.2.1 unprotectedEnvOracles.list_deployment_statuses "prod"
      { protection_rules := [] } rfl (by decide) rfl rfl
  · have hmain := h2.2.2.2.2.2.1 "prod" { protection_rules := ["required_reviewers"] }
      [ { state := some "approved", creator_login := some "carol",
          created_at := some "t1" },
        { state := some "success", creator_login := none,
          created_at := some "t2" } ]
      rfl (by decide) rfl (by decide) rfl
    rw [hmain]
    rfl

/-! ### Failure propagation through the listings -/

/-- C5 counterexample: A failing first page of the deployments listing is
not converted to an empty value: `process_repo` returns the raised error and
emits no rows at all — the exception crosses into the per-repo processing as
a hard failure and nothing continues — whereas identical oracles with the
listing succeeding produce a report row. -/
theorem c5_listing_failure_crosses_counterexample :
    process_repo depFailRepoOracles 0 10000 1 = .error ⟨500⟩
      ∧ process_repo okRepoOracles 0 10000 1
        = .ok [mk_report_row aliceRun "" "" (some "")] := by
  constructor
  · rfl
  · rfl

/-- C5 amended: The paginated listings do not go through the retrying
client and their failures are not contained: a failure on the first
deployments page propagates out of `process_repo` as a hard error (no rows
are produced for any run).  Containment to an empty value holds only inside
the per-deployment resolution: a failed environment fetch leaves the
deployment-status field as the empty string. -/
theorem c5_amended_failure_propagation (ro : RepoOracles) (sd ed : Int)
    (fuel : Nat) (e : ApiError) (hdep : ro.deployment_pages 0 = .error e)
    (o : Oracles) (dep : Deployment) (environment : String)
    (hdepEnv : dep.environment = some environment) (hne : environment ≠ "")
    (herr : o.get_environment environment = .error e) :
    (∀ runs, list_workflow_runs_loop ro.workflow_run_pages sd ed (fuel + 1) 0
          = .ok runs →
        process_repo ro sd ed (fuel + 1) = .error e)
      ∧ resolve_dep_status o dep = some "" := by
  constructor
  · intro runs hruns
    simp only [process_repo, hruns, list_deployments, paginate, hdep]
  · simp [resolve_dep_status, hdepEnv, hne, herr]

/-- Witness for the amended C5 at the concrete failing oracles. -/
theorem c5_amended_failure_propagation_witness :
    process_repo depFailRepoOracles 0 10000 1 = Except.error ⟨500⟩
      ∧ resolve_dep_status failingEnvOracles aliceDep = some "" := by
  have h := c5_amended_failure_propagation depFailRepoOracles 0 10000 0 ⟨500⟩ rfl
    failingEnvOracles aliceDep "prod" rfl (by decide) rfl
  exact ⟨h.1 [aliceRun] rfl, h.2⟩

/-- C6 counterexample: A 404 on the very first deployments page is an
error, not an empty sequence: `list_deployments` propagates the raise instead
of returning `.ok []`. -/
theorem c6_404_first_page_raises_counterexample :
    list_deployments (fun _ => .error ⟨404⟩) 5 = .error ⟨404⟩
      ∧ (Except.error ⟨404⟩ : Except ApiError (List Deployment))
          ≠ .ok ([] : List Deployment) :=
  ⟨rfl, fun h => Except.noConfusion h⟩

/-- C6 amended: The 404-tolerated-as-empty behaviour belongs to the
per-run reviews fetch: `get_workflow_run_reviews` yields `[]` on a 404;
the deployments listing has no such handling — a 404 on its first page
propagates as an error. -/
theorem c6_404_tolerated_only_for_reviews (resp : ReviewsResponse)
    (h : resp.status = 404)
    (pages : Nat → Except ApiError (List Deployment × Bool)) (fuel : Nat)
    (hp : pages 0 = .error ⟨404⟩) :
    get_workflow_run_reviews resp = .ok []
      ∧ list_deployments pages (fuel + 1) = .error ⟨404⟩ := by
  constructor
  · simp [get_workflow_run_reviews, h]
  · simp only [list_deployments, paginate, hp]

/-- Witness for the amended C6 at a concrete 404 response and page stream. -/
theorem c6_404_tolerated_only_for_reviews_witness :
    get_workflow_run_reviews { status := 404, body := none } = .ok []
      ∧ list_deployments (fun _ => .error ⟨404⟩) 1 = .error ⟨404⟩ :=
  c6_404_tolerated_only_for_reviews { status := 404, body := none } rfl
    (fun _ => .error ⟨404⟩) 0 rfl

end DeploymentReport
